import Mathlib

/-!
Verification of the fraud-analysis dashboard (`app/dashboard.py`).

The development shallowly embeds the data pipeline of the dashboard:

* `load` models `load_data`: required-column validation, numeric coercion of
  `amt` (`pd.to_numeric(..., errors='coerce')`) and `hour`
  (`pd.to_numeric(..., errors='coerce').astype('Int64')`, which raises on
  numeric values that are not integral), dropping of rows whose `amt` or
  `hour` is null after coercion together with the dropped-row warning, and
  normalization of the optional `is_fraud` column via `astype(bool)`.
* `hourBoundsDefault`, `uniqueCategories` model the sidebar control defaults.
* `applyFilter` models the boolean-mask construction of `df_filtered`.
* `render` models which charts and notices the visualization section emits.

Cell values parsed from the CSV are modelled by `SrcVal`; a string cell
carries the result of pandas' numeric parse of its text, so that
`pd.to_numeric` can be expressed without re-implementing the decimal parser.
-/

namespace FraudDashboard

/-- A cell value as it sits in a pandas DataFrame column after `read_csv`:
an integer, a finite float (modelled as a rational), a boolean, a string
(together with the rational that `pd.to_numeric` would parse it to, `none`
when the text is not numeric), or a missing value (`NaN`). -/
inductive SrcVal where
  | intVal (n : ℤ)
  | ratVal (q : ℚ)
  | boolVal (b : Bool)
  | strVal (s : String) (numParse : Option ℚ)
  | nullVal
deriving DecidableEq, Repr

/-- `pd.to_numeric(v, errors='coerce')` on a single cell: numbers pass
through, booleans become 1/0, strings use their numeric parse, anything
non-convertible (including `NaN`) becomes null. -/
def toNumeric : SrcVal → Option ℚ
  | .intVal n => some (n : ℚ)
  | .ratVal q => some q
  | .boolVal b => some (if b then 1 else 0)
  | .strVal _ p => p
  | .nullVal => none

/-- `.astype('Int64')` applied to the result of `pd.to_numeric` on a cell:
null stays null, an integral number casts to its integer, and a numeric
value with a fractional part makes pandas raise
(`cannot safely cast non-equivalent float64 to int64`). -/
def coerceHour (v : SrcVal) : Except Unit (Option ℤ) :=
  match toNumeric v with
  | none => .ok none
  | some q => if q.den = 1 then .ok (some q.num) else .error ()

/-- `bool(v)` / `astype(bool)` on a single cell, following Python/numpy
truthiness: nonzero numbers and nonempty strings are `true`, and `NaN`
(the float `read_csv` stores for a missing value) is nonzero, hence `true`. -/
def pyBool : SrcVal → Bool
  | .intVal n => n != 0
  | .ratVal q => q != 0
  | .boolVal b => b
  | .strVal s _ => s != ""
  | .nullVal => true

/-- One row of the raw CSV table. Fields for columns the file does not
contain are ignored by `load` (presence is recorded in `RawTable.cols`). -/
structure RawRow where
  hour : SrcVal
  amt : SrcVal
  category : String
  weekday : String
  is_fraud : SrcVal
deriving DecidableEq, Repr

/-- The parsed CSV file: its column names and its rows. -/
structure RawTable where
  cols : List String
  rows : List RawRow
deriving DecidableEq, Repr

/-- A row of the cleaned dataset returned by `load_data`: `hour` and `amt`
are guaranteed non-null, and `is_fraud` is `some` boolean exactly when the
source file had an `is_fraud` column. -/
structure CleanRow where
  hour : ℤ
  amt : ℚ
  category : String
  weekday : String
  is_fraud : Option Bool
deriving DecidableEq, Repr

/-- The cleaned dataset: whether the source file had an `is_fraud` column,
and the retained rows in their original order. -/
structure Dataset where
  hasFraud : Bool
  rows : List CleanRow
deriving DecidableEq, Repr

/-- Fatal loading failures surfaced by `st.error` + `st.stop`. -/
inductive LoadError where
  | missingColumn (c : String)
  | unexpectedLoadFailure
deriving DecidableEq, Repr

/-- Non-fatal diagnostics surfaced by `st.warning`. -/
inductive Warning where
  | rowsDropped (n : ℕ)
deriving DecidableEq, Repr

/-- `required_columns = ['hour', 'amt', 'category', 'weekday']`. -/
def requiredColumns : List String := ["hour", "amt", "category", "weekday"]

/-- Whether `.astype('Int64')` raises on this row's `hour` cell. -/
def hourCastFails (r : RawRow) : Bool :=
  match coerceHour r.hour with
  | .error _ => true
  | .ok _ => false

/-- The cleaning of one row: `none` when `dropna(subset=['amt','hour'])`
removes it (null `amt` or null `hour` after coercion), otherwise the
retained row, with `is_fraud` normalized by `astype(bool)` when the column
exists. Only evaluated on tables where the `hour` cast does not raise. -/
def cleanRow (hasFraud : Bool) (r : RawRow) : Option CleanRow :=
  match toNumeric r.amt, coerceHour r.hour with
  | some a, .ok (some h) =>
      some ⟨h, a, r.category, r.weekday,
            if hasFraud then some (pyBool r.is_fraud) else none⟩
  | _, _ => none

/-- `load_data` on an already-parsed table: check the required columns in
order (the first missing one is reported and the app stops); coerce `amt`
and `hour`, where a non-integral `hour` value makes `astype('Int64')` raise
— caught by the catch-all `except` as an unexpected failure; drop rows with
null `amt`/`hour` and warn with the exact count when any were dropped;
normalize `is_fraud` when present. -/
def load (t : RawTable) : Except LoadError (Dataset × List Warning) :=
  match requiredColumns.find? (fun c => !(t.cols.contains c)) with
  | some c => .error (.missingColumn c)
  | none =>
      if t.rows.any hourCastFails then .error .unexpectedLoadFailure
      else
        let hasFraud := t.cols.contains "is_fraud"
        let rows := t.rows.filterMap (cleanRow hasFraud)
        let warnings :=
          if rows.length < t.rows.length then
            [Warning.rowsDropped (t.rows.length - rows.length)]
          else []
        .ok (⟨hasFraud, rows⟩, warnings)

/-- A filter selection from the sidebar: the hour-range slider value, the
amount-range slider value, and the category multiselect value. -/
structure Selection where
  hourLo : ℤ
  hourHi : ℤ
  amtLo : ℚ
  amtHi : ℚ
  cats : List String
deriving DecidableEq, Repr

/-- The conjunctive row mask of `df_filtered`:
`(hour >= lo) & (hour <= hi) & (amt >= lo) & (amt <= hi) & category.isin(cats)`. -/
def rowPred (s : Selection) (r : CleanRow) : Bool :=
  decide (s.hourLo ≤ r.hour) && decide (r.hour ≤ s.hourHi) &&
  decide (s.amtLo ≤ r.amt) && decide (r.amt ≤ s.amtHi) &&
  s.cats.contains r.category

/-- The `df_filtered` computation: when the loaded dataset is empty an empty
result is produced directly, otherwise the boolean mask is applied. -/
def applyFilter (rows : List CleanRow) (s : Selection) : List CleanRow :=
  if rows.isEmpty then [] else rows.filter (rowPred s)

/-- `df['hour'].min() if not df['hour'].isnull().all() else 0` and the
matching `max`/`23` line. After `load` the hour column contains no nulls,
so pandas' null-skipping min/max and the all-null test reduce to the plain
min/max and emptiness of the column. -/
def hourBoundsDefault (rows : List CleanRow) : ℤ × ℤ :=
  match rows.map CleanRow.hour with
  | [] => (0, 23)
  | h :: tl => (tl.foldl min h, tl.foldl max h)

/-- `sorted(df['category'].unique().tolist())`: first occurrences of the
distinct categories, then sorted ascending. -/
def uniqueCategories (rows : List CleanRow) : List String :=
  List.insertionSort (· ≤ ·) (rows.map CleanRow.category).dedup

/-- `default=unique_categories` on the multiselect. -/
def defaultCategorySelection (rows : List CleanRow) : List String :=
  uniqueCategories rows

/-- `series.isnull().all()` for a column of nullable values. -/
def isnullAll (l : List (Option Bool)) : Bool :=
  l.all fun x => x.isNone

/-- The guard of the fraud-vs-amount chart:
`'is_fraud' in df.columns and not df_filtered['is_fraud'].isnull().all()`. -/
def fraudChartRendered (d : Dataset) (filtered : List CleanRow) : Bool :=
  d.hasFraud && !(isnullAll (filtered.map CleanRow.is_fraud))

/-- What the visualization section emits for a given run. -/
structure RenderResult where
  histogram : Bool
  heatmap : Bool
  fraudChart : Bool
  fraudNotice : Bool
  noMatchWarning : Bool
deriving DecidableEq, Repr

/-- The visualization section: with a non-empty filtered dataset the
histogram and heatmap always render and the fraud chart renders exactly
when its guard holds (otherwise the informational notice is shown); with an
empty filtered dataset no chart renders and the no-match warning is shown. -/
def render (d : Dataset) (filtered : List CleanRow) : RenderResult :=
  if !filtered.isEmpty then
    let fr := fraudChartRendered d filtered
    ⟨true, true, fr, !fr, false⟩
  else
    ⟨false, false, false, false, true⟩

end FraudDashboard

namespace FraudDashboard

/-- C1: for every dataset and filter selection, the filter engine returns
exactly the rows whose hour lies in the inclusive hour range, whose amount
lies in the inclusive amount range, and whose category is selected: a row
is in the output iff it is a row of the input satisfying the three-part
conjunctive predicate. -/
theorem applyFilter_mem_iff (rows : List CleanRow) (s : Selection) (r : CleanRow) :
    r ∈ applyFilter rows s ↔
      r ∈ rows ∧ s.hourLo ≤ r.hour ∧ r.hour ≤ s.hourHi ∧
        s.amtLo ≤ r.amt ∧ r.amt ≤ s.amtHi ∧ r.category ∈ s.cats := by
  unfold applyFilter
  by_cases h : rows.isEmpty
  · rw [List.isEmpty_iff.mp h]
    simp
  · simp only [h, Bool.false_eq_true, if_false, List.mem_filter, rowPred]
    simp [and_assoc]

/-- C2: applying the filter twice with the same selection equals applying
it once. -/
theorem applyFilter_idempotent (rows : List CleanRow) (s : Selection) :
    applyFilter (applyFilter rows s) s = applyFilter rows s := by
  by_cases h : rows.isEmpty
  · simp [applyFilter, h]
  · simp only [applyFilter, h, Bool.false_eq_true, if_false]
    by_cases h2 : (rows.filter (rowPred s)).isEmpty
    · rw [if_pos h2, List.isEmpty_iff.mp h2]
    · rw [if_neg (by simp [h2])]
      exact List.filter_eq_self.mpr fun a ha => (List.mem_filter.mp ha).2

/-- C10: the filtered dataset is an order-preserving subsequence of the
input dataset — filtering never reorders rows, and the input list itself is
not mutated (the result is a fresh list built from it). -/
theorem applyFilter_sublist (rows : List CleanRow) (s : Selection) :
    (applyFilter rows s).Sublist rows := by
  unfold applyFilter
  by_cases h : rows.isEmpty <;> simp [h, List.filter_sublist]

end FraudDashboard

namespace FraudDashboard

/-- The left fold of `min` is a lower bound for its start and all elements. -/
theorem foldl_min_le {α : Type*} [LinearOrder α] (l : List α) (a : α) :
    l.foldl min a ≤ a ∧ ∀ x ∈ l, l.foldl min a ≤ x := by
  induction l generalizing a with
  | nil => simp
  | cons b t ih =>
    refine ⟨le_trans (ih (min a b)).1 (min_le_left a b), ?_⟩
    intro x hx
    rcases List.mem_cons.mp hx with rfl | hx'
    · exact le_trans (ih (min a x)).1 (min_le_right a x)
    · exact (ih (min a b)).2 x hx'

/-- The left fold of `min` is either its start or one of the elements. -/
theorem foldl_min_mem {α : Type*} [LinearOrder α] (l : List α) (a : α) :
    l.foldl min a = a ∨ l.foldl min a ∈ l := by
  induction l generalizing a with
  | nil => exact Or.inl rfl
  | cons b t ih =>
    rcases ih (min a b) with h | h
    · rcases min_choice a b with h2 | h2
      · exact Or.inl (by rw [List.foldl_cons, h, h2])
      · exact Or.inr (by rw [List.foldl_cons, h, h2]; exact List.mem_cons_self b t)
    · exact Or.inr (List.mem_cons_of_mem b h)

/-- The left fold of `max` is an upper bound for its start and all elements. -/
theorem le_foldl_max {α : Type*} [LinearOrder α] (l : List α) (a : α) :
    a ≤ l.foldl max a ∧ ∀ x ∈ l, x ≤ l.foldl max a := by
  induction l generalizing a with
  | nil => simp
  | cons b t ih =>
    refine ⟨le_trans (le_max_left a b) (ih (max a b)).1, ?_⟩
    intro x hx
    rcases List.mem_cons.mp hx with rfl | hx'
    · exact le_trans (le_max_right a x) (ih (max a x)).1
    · exact (ih (max a b)).2 x hx'

/-- The left fold of `max` is either its start or one of the elements. -/
theorem foldl_max_mem {α : Type*} [LinearOrder α] (l : List α) (a : α) :
    l.foldl max a = a ∨ l.foldl max a ∈ l := by
  induction l generalizing a with
  | nil => exact Or.inl rfl
  | cons b t ih =>
    rcases ih (max a b) with h | h
    · rcases max_choice a b with h2 | h2
      · exact Or.inl (by rw [List.foldl_cons, h, h2])
      · exact Or.inr (by rw [List.foldl_cons, h, h2]; exact List.mem_cons_self b t)
    · exact Or.inr (List.mem_cons_of_mem b h)

/-- C5: on an empty loaded dataset the default hour slider bounds are
`(0, 23)`; on a non-empty one the lower bound is the exact minimum of the
hour column (a member of the column and a lower bound for it) and the upper
bound is the exact maximum. -/
theorem hourBoundsDefault_spec (rows : List CleanRow) :
    (rows = [] → hourBoundsDefault rows = (0, 23)) ∧
    (rows ≠ [] →
      ((hourBoundsDefault rows).1 ∈ rows.map CleanRow.hour ∧
        ∀ x ∈ rows.map CleanRow.hour, (hourBoundsDefault rows).1 ≤ x) ∧
      ((hourBoundsDefault rows).2 ∈ rows.map CleanRow.hour ∧
        ∀ x ∈ rows.map CleanRow.hour, x ≤ (hourBoundsDefault rows).2)) := by
  constructor
  · rintro rfl; rfl
  · intro hne
    rcases hrows : rows.map CleanRow.hour with _ | ⟨h, tl⟩
    · exact absurd (List.map_eq_nil_iff.mp hrows) hne
    · simp only [hourBoundsDefault, hrows]
      refine ⟨⟨?_, ?_⟩, ?_, ?_⟩
      · rcases foldl_min_mem tl h with h1 | h1
        · rw [h1]; exact List.mem_cons_self h tl
        · exact List.mem_cons_of_mem h h1
      · intro x hx
        rcases List.mem_cons.mp hx with rfl | hx'
        · exact (foldl_min_le tl x).1
        · exact (foldl_min_le tl h).2 x hx'
      · rcases foldl_max_mem tl h with h1 | h1
        · rw [h1]; exact List.mem_cons_self h tl
        · exact List.mem_cons_of_mem h h1
      · intro x hx
        rcases List.mem_cons.mp hx with rfl | hx'
        · exact (le_foldl_max tl x).1
        · exact (le_foldl_max tl h).2 x hx'

/-- Sample rows used for concrete witnesses. -/
def sampleRows : List CleanRow :=
  [⟨3, 10, "grocery", "Mon", none⟩, ⟨22, 5, "gas", "Tue", none⟩,
   ⟨7, 8, "grocery", "Wed", none⟩]

/-- Witness for C5 at a concrete non-empty dataset with hours {3, 22, 7}. -/
theorem hourBoundsDefault_spec_witness :
    (hourBoundsDefault sampleRows).1 ∈ sampleRows.map CleanRow.hour ∧
    (hourBoundsDefault sampleRows).2 ∈ sampleRows.map CleanRow.hour ∧
    hourBoundsDefault sampleRows = (3, 22) :=
  ⟨((hourBoundsDefault_spec sampleRows).2 (by decide)).1.1,
   ((hourBoundsDefault_spec sampleRows).2 (by decide)).2.1,
   by decide⟩

/-- C6: the category options are sorted ascending, contain no duplicates,
contain exactly the category values occurring in the dataset, and the
default multiselect selection is the full option list. -/
theorem uniqueCategories_spec (rows : List CleanRow) :
    List.Sorted (· ≤ ·) (uniqueCategories rows) ∧
    (uniqueCategories rows).Nodup ∧
    (∀ c : String, c ∈ uniqueCategories rows ↔ c ∈ rows.map CleanRow.category) ∧
    defaultCategorySelection rows = uniqueCategories rows := by
  refine ⟨List.sorted_insertionSort _ _, ?_, ?_, rfl⟩
  · exact ((List.perm_insertionSort _ _).nodup_iff).mpr (List.nodup_dedup _)
  · intro c
    rw [uniqueCategories, (List.perm_insertionSort _ _).mem_iff, List.mem_dedup]

end FraudDashboard

namespace FraudDashboard

/-- Every row of the filtered dataset is a row of the input dataset. -/
theorem mem_of_mem_applyFilter {rows : List CleanRow} {s : Selection}
    {r : CleanRow} (h : r ∈ applyFilter rows s) : r ∈ rows := by
  unfold applyFilter at h
  by_cases he : rows.isEmpty
  · simp [he] at h
  · simp only [he, Bool.false_eq_true, if_false] at h
    exact (List.mem_filter.mp h).1

/-- C7: for a non-empty filtered dataset the fraud-vs-amount chart renders
iff the loaded dataset has an `is_fraud` column and some filtered row has a
non-null `is_fraud` value; when it does not render, the informational
notice is emitted while the histogram and heatmap still render; and with no
`is_fraud` column the chart never renders. -/
theorem render_fraudChart_spec (d : Dataset) (filtered : List CleanRow)
    (hne : filtered ≠ []) :
    ((render d filtered).fraudChart = true ↔
      d.hasFraud = true ∧ ∃ r ∈ filtered, (r.is_fraud).isSome = true) ∧
    ((render d filtered).fraudChart = false →
      (render d filtered).fraudNotice = true ∧
      (render d filtered).histogram = true ∧
      (render d filtered).heatmap = true) ∧
    (d.hasFraud = false → (render d filtered).fraudChart = false) := by
  have he : filtered.isEmpty = false := by
    simp [List.isEmpty_iff, hne]
  refine ⟨?_, ?_, ?_⟩
  · simp only [render, he, Bool.not_false, if_true, fraudChartRendered, isnullAll,
      Bool.and_eq_true, Bool.not_eq_true']
    constructor
    · rintro ⟨h1, h2⟩
      refine ⟨h1, ?_⟩
      rcases List.all_eq_false.mp h2 with ⟨x, hx, hx2⟩
      rcases List.mem_map.mp hx with ⟨r, hr, rfl⟩
      exact ⟨r, hr, by simpa [Option.isSome_iff_ne_none] using hx2⟩
    · rintro ⟨h1, r, hr, hr2⟩
      refine ⟨h1, List.all_eq_false.mpr ?_⟩
      exact ⟨r.is_fraud, List.mem_map_of_mem CleanRow.is_fraud hr,
        by simpa [Option.isSome_iff_ne_none] using hr2⟩
  · intro h
    simp only [render, he, Bool.not_false, if_true] at h ⊢
    simp [h]
  · intro h
    simp [render, he, fraudChartRendered, h]

/-- A concrete loaded dataset with an `is_fraud` column. -/
def sampleFraudDataset : Dataset :=
  ⟨true, [⟨3, 10, "grocery", "Mon", some true⟩, ⟨5, 20, "gas", "Tue", some false⟩]⟩

/-- Witness for C7: on a concrete non-empty filtered dataset whose rows
carry `is_fraud` values, the fraud chart renders. -/
theorem render_fraudChart_spec_witness :
    (render sampleFraudDataset sampleFraudDataset.rows).fraudChart = true :=
  ((render_fraudChart_spec sampleFraudDataset sampleFraudDataset.rows
      (by decide)).1).mpr
    ⟨rfl, ⟨3, 10, "grocery", "Mon", some true⟩, by decide, rfl⟩

end FraudDashboard

namespace FraudDashboard

/-- C3: loading a table in which a required column (`hour`, `amt`,
`category` or `weekday`) is absent always fails with a `MissingColumn`
error naming a missing required column — so no dataset is returned — and
when the given column is the only missing required column, the error names
exactly that column. -/
theorem load_missingColumn (t : RawTable) (c : String)
    (hc : c ∈ requiredColumns) (hmiss : t.cols.contains c = false) :
    (∃ c', load t = .error (.missingColumn c') ∧
      c' ∈ requiredColumns ∧ t.cols.contains c' = false) ∧
    ((∀ c' ∈ requiredColumns, c' ≠ c → t.cols.contains c' = true) →
      load t = .error (.missingColumn c)) := by
  have hreq : requiredColumns = ["hour", "amt", "category", "weekday"] := rfl
  constructor
  · have hsome : (requiredColumns.find? fun x => !(t.cols.contains x)).isSome := by
      rw [List.find?_isSome]
      exact ⟨c, hc, by show (!(t.cols.contains c)) = true; rw [hmiss]; rfl⟩
    rcases Option.isSome_iff_exists.mp hsome with ⟨c', hfind⟩
    refine ⟨c', ?_, List.mem_of_find?_eq_some hfind, ?_⟩
    · unfold load
      rw [hfind]
    · have h2 := List.find?_some hfind
      rcases Bool.eq_false_or_eq_true (t.cols.contains c') with h | h
      · simp at h2
        exact absurd (by simpa using h) h2
      · exact h
  · intro hothers
    have hfind : (requiredColumns.find? fun x => !(t.cols.contains x)) = some c := by
      fin_cases hc
      · have hm : "hour" ∉ t.cols := by simpa using hmiss
        rw [hreq, List.find?_cons_of_pos _ (by simp [hm])]
      · have h1 : "hour" ∈ t.cols := by
          simpa using hothers "hour" (by simp [requiredColumns]) (by decide)
        have hm : "amt" ∉ t.cols := by simpa using hmiss
        rw [hreq, List.find?_cons_of_neg _ (by simp [h1]),
          List.find?_cons_of_pos _ (by simp [hm])]
      · have h1 : "hour" ∈ t.cols := by
          simpa using hothers "hour" (by simp [requiredColumns]) (by decide)
        have h2 : "amt" ∈ t.cols := by
          simpa using hothers "amt" (by simp [requiredColumns]) (by decide)
        have hm : "category" ∉ t.cols := by simpa using hmiss
        rw [hreq, List.find?_cons_of_neg _ (by simp [h1]),
          List.find?_cons_of_neg _ (by simp [h2]),
          List.find?_cons_of_pos _ (by simp [hm])]
      · have h1 : "hour" ∈ t.cols := by
          simpa using hothers "hour" (by simp [requiredColumns]) (by decide)
        have h2 : "amt" ∈ t.cols := by
          simpa using hothers "amt" (by simp [requiredColumns]) (by decide)
        have h3 : "category" ∈ t.cols := by
          simpa using hothers "category" (by simp [requiredColumns]) (by decide)
        have hm : "weekday" ∉ t.cols := by simpa using hmiss
        rw [hreq, List.find?_cons_of_neg _ (by simp [h1]),
          List.find?_cons_of_neg _ (by simp [h2]),
          List.find?_cons_of_neg _ (by simp [h3]),
          List.find?_cons_of_pos _ (by simp [hm])]
    unfold load
    rw [hfind]

/-- A concrete table missing the `hour` column. -/
def tableNoHour : RawTable := ⟨["amt", "category", "weekday"], []⟩

/-- Witness for C3: loading a table without the `hour` column fails with
`MissingColumn "hour"`. -/
theorem load_missingColumn_witness :
    load tableNoHour = .error (.missingColumn "hour") :=
  (load_missingColumn tableNoHour "hour" (by decide) (by decide)).2 (by decide)

end FraudDashboard

namespace FraudDashboard

/-- Inversion of a successful `load`: the required-column check and the
`hour` cast both passed, and the returned dataset and warnings are the
cleaned rows and the dropped-row diagnostics. -/
theorem load_ok_inv (t : RawTable) (d : Dataset) (w : List Warning)
    (h : load t = .ok (d, w)) :
    d = ⟨t.cols.contains "is_fraud",
         t.rows.filterMap (cleanRow (t.cols.contains "is_fraud"))⟩ ∧
    w = (if (t.rows.filterMap (cleanRow (t.cols.contains "is_fraud"))).length
            < t.rows.length then
          [Warning.rowsDropped (t.rows.length -
            (t.rows.filterMap (cleanRow (t.cols.contains "is_fraud"))).length)]
         else []) ∧
    t.rows.any hourCastFails = false ∧
    (requiredColumns.find? fun c => !(t.cols.contains c)) = none := by
  unfold load at h
  cases hfind : requiredColumns.find? fun c => !(t.cols.contains c) with
  | some c =>
    rw [hfind] at h
    cases h
  | none =>
    rw [hfind] at h
    by_cases hany : t.rows.any hourCastFails = true
    · rw [if_pos hany] at h
      cases h
    · rw [if_neg hany] at h
      have h' := Except.ok.inj h
      exact ⟨(congrArg Prod.fst h').symm, (congrArg Prod.snd h').symm,
        by simpa using hany, rfl⟩

/-- The `is_fraud` field of a cleaned row, read off from `cleanRow`. -/
theorem cleanRow_is_fraud {hf : Bool} {raw : RawRow} {r : CleanRow}
    (h : cleanRow hf raw = some r) :
    r.is_fraud = if hf then some (pyBool raw.is_fraud) else none := by
  unfold cleanRow at h
  rcases hA : toNumeric raw.amt with - | a
  · rw [hA] at h
    simp at h
  · rcases hH : coerceHour raw.hour with e | oh
    · rw [hA, hH] at h
      simp at h
    · rcases oh with - | hv
      · rw [hA, hH] at h
        simp at h
      · rw [hA, hH] at h
        cases h
        rfl

/-- The claim-side reading of "non-zero / truthy": a nonzero number, the
boolean true, a nonempty string; a missing value (`NaN`) is likewise a
non-zero float. -/
def specTruthy : SrcVal → Prop
  | .intVal n => n ≠ 0
  | .ratVal q => q ≠ 0
  | .boolVal b => b = true
  | .strVal s _ => s ≠ ""
  | .nullVal => True

/-- `astype(bool)` on a cell agrees with the spec's truthiness reading. -/
theorem pyBool_iff (v : SrcVal) : pyBool v = true ↔ specTruthy v := by
  cases v <;> simp [pyBool, specTruthy]

/-- C8: when the source table has an `is_fraud` column, every row of the
loaded dataset carries a boolean `is_fraud` obtained from some source row
by `astype(bool)`, and that boolean is `true` exactly for non-zero/truthy
source values. -/
theorem load_is_fraud_normalized (t : RawTable) (d : Dataset) (w : List Warning)
    (hfr : t.cols.contains "is_fraud" = true) (hload : load t = .ok (d, w)) :
    ∀ r ∈ d.rows, ∃ raw ∈ t.rows,
      cleanRow true raw = some r ∧
      r.is_fraud = some (pyBool raw.is_fraud) ∧
      (pyBool raw.is_fraud = true ↔ specTruthy raw.is_fraud) := by
  obtain ⟨hd, -, -, -⟩ := load_ok_inv t d w hload
  intro r hr
  have hr' : r ∈ t.rows.filterMap (cleanRow true) := by
    rw [hd] at hr
    rw [hfr] at hr
    exact hr
  rcases List.mem_filterMap.mp hr' with ⟨raw, hraw, hclean⟩
  refine ⟨raw, hraw, hclean, ?_, pyBool_iff _⟩
  rw [cleanRow_is_fraud hclean]
  rfl

/-- A concrete table with an `is_fraud` column; the second row's `is_fraud`
cell is a missing value. -/
def tableFraud : RawTable :=
  ⟨["hour", "amt", "category", "weekday", "is_fraud"],
   [⟨.intVal 3, .intVal 10, "grocery", "Mon", .intVal 1⟩,
    ⟨.intVal 5, .intVal 20, "gas", "Tue", .nullVal⟩]⟩

/-- The dataset `load` produces from `tableFraud`. -/
def datasetFraud : Dataset :=
  ⟨true, [⟨3, 10, "grocery", "Mon", some true⟩,
          ⟨5, 20, "gas", "Tue", some true⟩]⟩

/-- Witness for C8 on `tableFraud`: the loaded row coming from the source
row whose `is_fraud` cell is `1` indeed carries `some true`. -/
theorem load_is_fraud_normalized_witness :
    (⟨3, 10, "grocery", "Mon", some true⟩ : CleanRow).is_fraud = some true := by
  obtain ⟨raw, hraw, -, hf, -⟩ :=
    load_is_fraud_normalized tableFraud datasetFraud [] (by decide) rfl
      ⟨3, 10, "grocery", "Mon", some true⟩ (by decide)
  have hall : ∀ x ∈ tableFraud.rows, pyBool x.is_fraud = true := by decide
  rw [hf, hall raw hraw]

/-- C9: `bool(NaN)` is `true`, so a loaded dataset with an `is_fraud`
column contains no null `is_fraud` values, and for any filter selection
with a non-empty filtered result the fraud-chart guard is satisfied. -/
theorem load_is_fraud_never_null (t : RawTable) (d : Dataset)
    (w : List Warning) (s : Selection)
    (hload : load t = .ok (d, w)) (hfr : d.hasFraud = true)
    (hne : applyFilter d.rows s ≠ []) :
    pyBool SrcVal.nullVal = true ∧
    (∀ r ∈ d.rows, (r.is_fraud).isSome = true) ∧
    fraudChartRendered d (applyFilter d.rows s) = true := by
  obtain ⟨hd, -, -, -⟩ := load_ok_inv t d w hload
  have hcol : t.cols.contains "is_fraud" = true := by
    rw [hd] at hfr
    exact hfr
  have hall : ∀ r ∈ d.rows, (r.is_fraud).isSome = true := by
    intro r hr
    have hr' : r ∈ t.rows.filterMap (cleanRow true) := by
      rw [hd] at hr
      rw [hcol] at hr
      exact hr
    rcases List.mem_filterMap.mp hr' with ⟨raw, -, hclean⟩
    rw [cleanRow_is_fraud hclean]
    rfl
  refine ⟨rfl, hall, ?_⟩
  rcases List.exists_mem_of_ne_nil _ hne with ⟨r, hrf⟩
  have hrd : r ∈ d.rows := mem_of_mem_applyFilter hrf
  unfold fraudChartRendered
  rw [hfr, Bool.true_and, Bool.not_eq_true']
  unfold isnullAll
  refine List.all_eq_false.mpr
    ⟨r.is_fraud, List.mem_map_of_mem CleanRow.is_fraud hrf, ?_⟩
  have := hall r hrd
  rcases hopt : r.is_fraud with - | b
  · rw [hopt] at this
    cases this
  · simp

/-- A filter selection keeping every row of `datasetFraud`. -/
def selAll : Selection := ⟨0, 23, 0, 1000, ["grocery", "gas"]⟩

/-- Witness for C9 on `tableFraud` and `selAll`: the fraud-chart guard
holds on the non-empty filtered dataset. -/
theorem load_is_fraud_never_null_witness :
    fraudChartRendered datasetFraud (applyFilter datasetFraud.rows selAll) = true :=
  (load_is_fraud_never_null tableFraud datasetFraud [] selAll rfl rfl
    (by decide)).2.2

end FraudDashboard

namespace FraudDashboard

/-- A raw row removed by `dropna(subset=['amt','hour'])`: its `amt` or its
`hour` is null after numeric coercion. Only meaningful on tables where the
`hour` cast does not raise. -/
def droppedRow (r : RawRow) : Bool :=
  (toNumeric r.amt).isNone ||
    (match coerceHour r.hour with
     | .ok none => true
     | _ => false)

/-- On a row whose `hour` cast does not raise, `cleanRow` retains the row
exactly when `dropna` would not remove it. -/
theorem cleanRow_isSome (hf : Bool) (r : RawRow) (h : hourCastFails r = false) :
    (cleanRow hf r).isSome = !(droppedRow r) := by
  unfold hourCastFails at h
  rcases hA : toNumeric r.amt with - | a
  · rcases hH : coerceHour r.hour with e | oh
    · rw [hH] at h
      simp at h
    · simp [cleanRow, droppedRow, hA, hH]
  · rcases hH : coerceHour r.hour with e | oh
    · rw [hH] at h
      simp at h
    · rcases oh with - | v
      · simp [cleanRow, droppedRow, hA, hH]
      · simp [cleanRow, droppedRow, hA, hH]

/-- Retained plus dropped rows partition the input rows. -/
theorem length_filterMap_add (hf : Bool) (l : List RawRow)
    (h : ∀ r ∈ l, hourCastFails r = false) :
    (l.filterMap (cleanRow hf)).length + (l.filter droppedRow).length
      = l.length := by
  induction l with
  | nil => rfl
  | cons r t ih =>
    have hr := h r (List.mem_cons_self r t)
    have ih' := ih fun x hx => h x (List.mem_cons_of_mem r hx)
    have hcs := cleanRow_isSome hf r hr
    cases hd : droppedRow r with
    | false =>
      have hcs' : (cleanRow hf r).isSome = true := by simpa [hd] using hcs
      rcases Option.isSome_iff_exists.mp hcs' with ⟨y, hy⟩
      rw [List.filterMap_cons_some hy,
        List.filter_cons_of_neg (by simp [hd])]
      simp only [List.length_cons]
      omega
    | true =>
      have hcs' : (cleanRow hf r).isSome = false := by simpa [hd] using hcs
      have hnone : cleanRow hf r = none :=
        Option.not_isSome_iff_eq_none.mp (by simp [hcs'])
      rw [List.filterMap_cons_none hnone,
        List.filter_cons_of_pos (by simp [hd])]
      simp only [List.length_cons]
      omega

/-- A table whose single row has a non-null, integral `amt` but a
fractional `hour` value (`3.5`). -/
def tableFracHour : RawTable :=
  ⟨["hour", "amt", "category", "weekday"],
   [⟨.ratVal (mkRat 7 2), .intVal 10, "grocery", "Mon", .nullVal⟩]⟩

/-- C4 counterexample: the single row of `tableFracHour` has non-null `amt`
and non-null `hour` after `to_numeric`, so no row is droppable and the
claim predicts a successful load retaining the row; but `astype('Int64')`
raises on the fractional hour and loading fails fatally instead. -/
theorem load_fracHour_fails :
    (toNumeric (SrcVal.ratVal (mkRat 7 2))).isSome = true ∧
    (tableFracHour.rows.filter droppedRow).length = 0 ∧
    load tableFracHour = .error .unexpectedLoadFailure :=
  ⟨rfl, rfl, rfl⟩

/-- C4 (amended): for every table passing the required-column check whose
`hour` cells are each null or integral after coercion (so the `Int64` cast
does not raise), loading succeeds; it retains exactly the rows whose `amt`
and `hour` are non-null after coercion, the retained count plus the dropped
count equals the original count, and a warning carrying the exact dropped
count is emitted exactly when at least one row was dropped. -/
theorem load_drop_spec (t : RawTable)
    (hcols : ∀ c ∈ requiredColumns, t.cols.contains c = true)
    (hcast : ∀ r ∈ t.rows, hourCastFails r = false) :
    ∃ d w, load t = .ok (d, w) ∧
      d.rows = t.rows.filterMap (cleanRow (t.cols.contains "is_fraud")) ∧
      d.rows.length + (t.rows.filter droppedRow).length = t.rows.length ∧
      (0 < (t.rows.filter droppedRow).length →
        w = [Warning.rowsDropped ((t.rows.filter droppedRow).length)]) ∧
      ((t.rows.filter droppedRow).length = 0 → w = []) := by
  have hfind : (requiredColumns.find? fun c => !(t.cols.contains c)) = none := by
    rw [List.find?_eq_none]
    intro x hx
    have hx2 : x ∈ t.cols := by simpa using hcols x hx
    simp [hx2]
  have hany : t.rows.any hourCastFails = false :=
    List.any_eq_false.mpr fun x hx => by simp [hcast x hx]
  have hlen := length_filterMap_add (t.cols.contains "is_fraud") t.rows hcast
  refine ⟨⟨t.cols.contains "is_fraud",
    t.rows.filterMap (cleanRow (t.cols.contains "is_fraud"))⟩,
    (if (t.rows.filterMap (cleanRow (t.cols.contains "is_fraud"))).length
        < t.rows.length then
      [Warning.rowsDropped (t.rows.length -
        (t.rows.filterMap (cleanRow (t.cols.contains "is_fraud"))).length)]
     else []), ?_, rfl, hlen, ?_, ?_⟩
  · unfold load
    rw [hfind, if_neg (by simp [hany])]
  · intro hp
    rw [if_pos (by omega)]
    have hx : t.rows.length -
        (t.rows.filterMap (cleanRow (t.cols.contains "is_fraud"))).length
        = (t.rows.filter droppedRow).length := by omega
    rw [hx]
  · intro hz
    rw [if_neg (by omega)]

/-- A concrete table with one clean row and one row whose `hour` cell is
non-numeric text. -/
def tableDrop : RawTable :=
  ⟨["hour", "amt", "category", "weekday"],
   [⟨.intVal 3, .intVal 10, "grocery", "Mon", .nullVal⟩,
    ⟨.strVal "abc" none, .intVal 20, "gas", "Tue", .nullVal⟩]⟩

/-- Witness for the amended C4: `tableDrop` satisfies both hypotheses and
loads successfully. -/
theorem load_drop_spec_witness : (load tableDrop).isOk = true := by
  obtain ⟨d, w, h1, -, -, -, -⟩ := load_drop_spec tableDrop (by decide) (by decide)
  rw [h1]
  rfl

end FraudDashboard
